/-
  Verification of the product-description-generator serverless handlers.

  Shallow embedding of:
  - api/generate.js   (validation, rate limiting, response cache, handler)
  - src/api/health.js (health-check handler)
  - src/api/unsubscribe.js (unsubscribe handler)

  JS strings are modelled as `List Char`; JS `Map`s as association lists;
  `Date.now()` as an explicit `now : Nat` parameter; external services
  (Supabase, Resend, Gemini) as oracle parameters recording their outcomes.
-/
import Mathlib

namespace ProdDescGen

/-! ### JS string primitives -/

/-- Whitespace as removed by JS `String.prototype.trim` (ASCII part). -/
def isWs (c : Char) : Bool :=
  c.toNat = 32 ∨ c.toNat = 9 ∨ c.toNat = 10 ∨ c.toNat = 11 ∨ c.toNat = 12 ∨ c.toNat = 13

/-- JS `s.trim()`: strip leading and trailing whitespace. -/
def jsTrim (s : List Char) : List Char :=
  ((s.dropWhile isWs).reverse.dropWhile isWs).reverse

/-- ASCII lowercase of one char, as JS `toLowerCase` acts on A-Z. -/
def lowerChar (c : Char) : Char :=
  if 65 ≤ c.toNat ∧ c.toNat ≤ 90 then Char.ofNat (c.toNat + 32) else c

/-- JS `s.toLowerCase()` (ASCII fragment). -/
def jsToLower (s : List Char) : List Char := s.map lowerChar

/-- JS `s.slice(0, n)`. -/
def jsSlice (n : Nat) (s : List Char) : List Char := s.take n

/-! ### api/generate.js : input validation and sanitization -/

/-- An ASCII control character, as matched by `/[\x00-\x1F\x7F]/`. -/
def isControl (c : Char) : Bool := c.toNat ≤ 31 ∨ c.toNat = 127

/-- A character removed by `/[<>]/`. -/
def isAngle (c : Char) : Bool := c.toNat = 60 ∨ c.toNat = 62

/-- `sanitizeText` from generate.js: drop control characters, drop `<` and
`>`, then trim. -/
def sanitizeText (t : List Char) : List Char :=
  jsTrim ((t.filter (fun c => !isControl c)).filter (fun c => !isAngle c))

/-- Characters allowed in the local part of the strict email regex of
generate.js (letters, digits, and the listed specials). -/
def isLocalChar (c : Char) : Bool :=
  let n := c.toNat
  (65 ≤ n ∧ n ≤ 90) ∨ (97 ≤ n ∧ n ≤ 122) ∨ (48 ≤ n ∧ n ≤ 57) ∨
  n ∈ [46, 33, 35, 36, 37, 38, 39, 42, 43, 47, 61, 63, 94, 95, 96, 123, 124, 125, 126, 45]

/-- Characters allowed in a domain label: `[a-zA-Z0-9-]`. -/
def isDomainChar (c : Char) : Bool :=
  let n := c.toNat
  (65 ≤ n ∧ n ≤ 90) ∨ (97 ≤ n ∧ n ≤ 122) ∨ (48 ≤ n ∧ n ≤ 57) ∨ n = 45

/-- Split a list at every occurrence of `c` (the separators are dropped). -/
def splitOnChar (c : Char) : List Char → List (List Char)
  | [] => [[]]
  | x :: xs =>
    match splitOnChar c xs with
    | [] => [[]]
    | p :: ps => if x = c then [] :: p :: ps else (x :: p) :: ps

/-- The strict email regex of generate.js,
`/^[...]+@[a-zA-Z0-9-]+(?:\.[a-zA-Z0-9-]+)*$/`: one `@`, a nonempty local
part of local characters, and a nonempty dot-separated sequence of nonempty
alphanumeric-or-hyphen labels. -/
def emailRegexTest (s : List Char) : Bool :=
  match splitOnChar (Char.ofNat 64) s with
  | [loc, dom] =>
    !loc.isEmpty && loc.all isLocalChar &&
      (splitOnChar (Char.ofNat 46) dom).all (fun lbl => !lbl.isEmpty && lbl.all isDomainChar)
  | _ => false

/-- A field of the JSON request body: absent, a string, or some other
value (of which only truthiness matters to the code). -/
inductive JsField where
  | absent
  | str (s : List Char)
  | nonstr (truthy : Bool)
deriving DecidableEq

/-- JS falsiness of a body field (`undefined`, `""`, `0`, ... are falsy). -/
def JsField.falsy : JsField → Bool
  | .absent => true
  | .str s => s.isEmpty
  | .nonstr t => !t

/-- `typeof x === 'string'`. -/
def JsField.isStr : JsField → Bool
  | .str _ => true
  | _ => false

/-- The parsed request body of the generate endpoint. -/
structure InputData where
  productName : JsField
  productFeatures : JsField
  email : JsField
deriving DecidableEq

/-- The sanitized data returned on `valid: true`. -/
structure SanitizedData where
  productName : List Char
  productFeatures : List Char
  email : List Char
deriving DecidableEq

/-- Result of `validateAndSanitizeInput`: `valid: false` with an error
message, or `valid: true` with sanitized data. -/
inductive ValidationResult where
  | invalid (error : String)
  | valid (data : SanitizedData)
deriving DecidableEq

/-- `validateAndSanitizeInput` from generate.js. The email is checked
first against the strict regex; then `productName` and `productFeatures`
must be truthy strings; both are trimmed, truncated (100 / 2000), checked
nonempty, and sanitized. A non-string truthy email makes `email.trim()`
throw, modelled as `Except.error`. -/
def validateAndSanitizeInput (d : InputData) : Except String ValidationResult :=
  if d.email.falsy then .ok (.invalid "Invalid email address format")
  else
    match d.email with
    | .absent => .ok (.invalid "Invalid email address format")
    | .nonstr _ => .error "TypeError: email.trim is not a function"
    | .str e =>
      if !emailRegexTest (jsTrim e) then .ok (.invalid "Invalid email address format")
      else if d.productName.falsy || !d.productName.isStr then
        .ok (.invalid "Product name is required and must be text")
      else if d.productFeatures.falsy || !d.productFeatures.isStr then
        .ok (.invalid "Product features are required and must be text")
      else
        match d.productName, d.productFeatures with
        | .str pn, .str pf =>
          let cleanProductName := jsSlice 100 (jsTrim pn)
          let cleanProductFeatures := jsSlice 2000 (jsTrim pf)
          let cleanEmail := jsToLower (jsTrim e)
          if cleanProductName.isEmpty then .ok (.invalid "Product name cannot be empty")
          else if cleanProductFeatures.isEmpty then
            .ok (.invalid "Product features cannot be empty")
          else
            .ok (.valid
              { productName := sanitizeText cleanProductName
                productFeatures := sanitizeText cleanProductFeatures
                email := sanitizeText cleanEmail })
        | _, _ => .ok (.invalid "unreachable")

/-! ### Association-list model of JS `Map` -/

/-- `Map.get`: first binding for the key. -/
def alookup {κ α : Type} [DecidableEq κ] (k : κ) : List (κ × α) → Option α
  | [] => none
  | (k', v) :: rest => if k = k' then some v else alookup k rest

/-- `Map.set`: replace the first binding in place, or append. -/
def aset {κ α : Type} [DecidableEq κ] (k : κ) (v : α) : List (κ × α) → List (κ × α)
  | [] => [(k, v)]
  | (k', v') :: rest => if k = k' then (k, v) :: rest else (k', v') :: aset k v rest

/-! ### api/generate.js : rate limiter and response cache -/

/-- `RATE_LIMIT_WINDOW` (60 * 1000 ms). -/
def RATE_LIMIT_WINDOW : Nat := 60 * 1000

/-- `RATE_LIMIT_MAX_REQUESTS`. -/
def RATE_LIMIT_MAX_REQUESTS : Nat := 5

/-- `CACHE_TTL` (5 * 60 * 1000 ms). -/
def CACHE_TTL : Nat := 5 * 60 * 1000

/-- The in-memory `rateLimitMap`: client IP to list of request timestamps. -/
abbrev RateMap := List (String × List Nat)

/-- A `responseCache` entry. -/
structure CacheEntry where
  description : List Char
  timestamp : Nat
deriving DecidableEq

/-- The in-memory `responseCache`, keyed by the normalized cache key. -/
abbrev Cache := List (List Char × CacheEntry)

/-- A timestamp still inside the rate-limit window at time `now`. -/
def inWindow (now t : Nat) : Bool := now - t < RATE_LIMIT_WINDOW

/-- The periodic 1% cleanup of `rateLimitMap`: refilter every entry,
deleting entries left empty. -/
def cleanupRateMap (now : Nat) : RateMap → RateMap
  | [] => []
  | (k, ts) :: rest =>
    let valid := ts.filter (inWindow now)
    if valid.isEmpty then cleanupRateMap now rest
    else (k, valid) :: cleanupRateMap now rest

/-- `checkRateLimit` from generate.js. Returns the boolean outcome and the
updated map; `cleanupDraw` models the `Math.random() < 0.01` draw. -/
def checkRateLimit (now : Nat) (ip : String) (m : RateMap) (cleanupDraw : Bool) :
    Bool × RateMap :=
  let requests := (alookup ip m).getD []
  let validRequests := requests.filter (inWindow now)
  if RATE_LIMIT_MAX_REQUESTS ≤ validRequests.length then (false, m)
  else
    let m1 := aset ip (validRequests ++ [now]) m
    (true, if cleanupDraw then cleanupRateMap now m1 else m1)

/-- `getCacheKey` from generate.js: lowercase, trim, truncate features to
200 chars, join with `:`. -/
def getCacheKey (productName productFeatures : List Char) : List Char :=
  let normalizedFeatures := jsSlice 200 (jsTrim (jsToLower productFeatures))
  let normalizedName := jsTrim (jsToLower productName)
  normalizedName ++ [Char.ofNat 58] ++ normalizedFeatures

/-- `cleanCache` from generate.js: delete every entry strictly older than
`CACHE_TTL`. -/
def cleanCache (now : Nat) (c : Cache) : Cache :=
  c.filter fun kv => !(CACHE_TTL < now - kv.2.timestamp)

/-! ### api/generate.js : the request handler -/

/-- The handler environment: `NODE_ENV === 'development'` and whether
`STRIPE_CHECKOUT_LINK` is set. -/
structure Env where
  nodeEnvDev : Bool
  stripeLinkSet : Bool
deriving DecidableEq

/-- Outcomes of the external SaaS calls a single request can make.
`dbError` / `dbErrorCacheHit` are the `error` field returned by the
Supabase upsert; `llm` is the Gemini call (`Except.error` models a thrown
error such as the 30-second timeout); `emailFailAt` is the index of the
first Resend send that throws, if any; `cleanupDraw` is the rate limiter's
random cleanup draw. -/
structure Oracles where
  dbError : Option String
  dbErrorCacheHit : Option String
  llm : Except String (List Char)
  emailFailAt : Option Nat
  emailCacheHitFails : Bool
  cleanupDraw : Bool

/-- An incoming HTTP request to the generate endpoint. -/
structure Request where
  method : String
  ip : String
  requestId : String
  body : InputData

/-- The JSON response of the generate endpoint. -/
structure Response where
  status : Nat
  description : Option (List Char)
  error : Option String
  requestId : Option String
deriving DecidableEq

/-- The mutable module-level state of generate.js. -/
structure HState where
  rateLimitMap : RateMap
  responseCache : Cache
deriving DecidableEq

/-- Externally observable actions of one request, in program order. -/
inductive Action where
  | validateInput
  | dbUpsert (email productName : List Char)
  | callLLM
  | sendEmail (scheduledDelayMs : Option Nat)
  | logWarn (message : String)
deriving DecidableEq

/-- The handler's outcome: response, new module state, action trace. -/
structure HResult where
  response : Response
  state : HState
  trace : List Action
deriving DecidableEq

/-- The generic production error message of the catch block. -/
def genericErrorMsg : String := "An error occurred while generating your description."

/-- The 500 response of the outer catch block: internal message in
development, generic otherwise, always echoing the request ID. -/
def mk500 (env : Env) (internalMsg : String) (requestId : String) : Response :=
  { status := 500
    description := none
    error := some (if env.nodeEnvDev then internalMsg else genericErrorMsg)
    requestId := some requestId }

/-- The email sequence attempted on the cache-miss path: immediate,
+2 hours, and (when the Stripe link is configured) +6 hours. -/
def plannedEmails (env : Env) : List Action :=
  [.sendEmail none, .sendEmail (some (2 * 60 * 60 * 1000))] ++
    (if env.stripeLinkSet then [.sendEmail (some (6 * 60 * 60 * 1000))] else [])

/-- The sends actually performed: all of them, or the prefix up to and
including the first one that throws. -/
def performedEmails (env : Env) (emailFailAt : Option Nat) : List Action :=
  match emailFailAt with
  | none => plannedEmails env
  | some k => (plannedEmails env).take (k + 1)

/-- The cache-hit branch of the handler (generate.js lines 287-336):
upsert the lead, send the immediate email with the cached description
(failures caught and logged), respond 200 with the trimmed cached
description. -/
def cacheHitPath (_env : Env) (o : Oracles) (d : SanitizedData) (item : CacheEntry)
    (st : HState) : HResult :=
  let dbTrace := [Action.dbUpsert d.email d.productName]
  let emailTrace :=
    if o.emailCacheHitFails then
      [Action.sendEmail none, Action.logWarn "Cache hit processing failed"]
    else [Action.sendEmail none]
  { response :=
      { status := 200
        description := some (jsTrim item.description)
        error := none
        requestId := none }
    state := st
    trace := dbTrace ++ emailTrace }

/-- The cache-miss branch of the handler (generate.js lines 338-462):
STEP 1 upsert the lead (a returned error is only logged as a warning),
STEP 2 call the LLM (a thrown error or an empty description reaches the
outer catch and yields a 500), store the trimmed description in the cache,
STEP 3 attempt the email sequence (failures caught and logged), respond
200 with the trimmed description. -/
def cacheMissPath (env : Env) (o : Oracles) (now : Nat) (requestId : String)
    (d : SanitizedData) (cacheKey : List Char) (st : HState) : HResult :=
  let dbTrace :=
    [Action.dbUpsert d.email d.productName] ++
      (match o.dbError with
       | some _ => [Action.logWarn "Database error occurred"]
       | none => [])
  match o.llm with
  | .error msg =>
    { response := mk500 env msg requestId
      state := st
      trace := dbTrace ++ [.callLLM] }
  | .ok description =>
    if (jsTrim description).isEmpty then
      { response := mk500 env "LLM failed to generate a valid description." requestId
        state := st
        trace := dbTrace ++ [.callLLM] }
    else
      let st1 := { st with
        responseCache :=
          aset cacheKey { description := jsTrim description, timestamp := now }
            st.responseCache }
      let emailTrace := performedEmails env o.emailFailAt ++
        (match o.emailFailAt with
         | some _ => [Action.logWarn "Email sending failed"]
         | none => [])
      { response :=
          { status := 200
            description := some (jsTrim description)
            error := none
            requestId := none }
        state := st1
        trace := dbTrace ++ [.callLLM] ++ emailTrace }

/-- The cache-hit test of generate.js line 288:
`cachedItem && (Date.now() - cachedItem.timestamp < CACHE_TTL)`. -/
def freshCacheLookup (now : Nat) (c : Cache) (key : List Char) : Option CacheEntry :=
  match alookup key c with
  | some item => if now - item.timestamp < CACHE_TTL then some item else none
  | none => none

/-- The generate handler (generate.js `handler`): method check, rate
limit, validation, cache lookup after `cleanCache`, then the cache-hit or
cache-miss path. -/
def handler (env : Env) (o : Oracles) (now : Nat) (req : Request) (st : HState) :
    HResult :=
  if req.method ≠ "POST" then
    { response := { status := 405, description := none,
                    error := some "Method Not Allowed", requestId := none }
      state := st
      trace := [] }
  else
    let rl := checkRateLimit now req.ip st.rateLimitMap o.cleanupDraw
    let st1 := { st with rateLimitMap := rl.2 }
    if !rl.1 then
      { response := { status := 429, description := none,
                      error := some "Too many requests. Please try again later.",
                      requestId := none }
        state := st1
        trace := [] }
    else
      match validateAndSanitizeInput req.body with
      | .error msg =>
        { response := mk500 env msg req.requestId
          state := st1
          trace := [.validateInput] }
      | .ok (.invalid err) =>
        { response := { status := 400, description := none, error := some err,
                        requestId := none }
          state := st1
          trace := [.validateInput] }
      | .ok (.valid d) =>
        let cacheKey := getCacheKey d.productName d.productFeatures
        let st2 := { st1 with responseCache := cleanCache now st1.responseCache }
        let r :=
          match freshCacheLookup now st2.responseCache cacheKey with
          | some item => cacheHitPath env o d item st2
          | none => cacheMissPath env o now req.requestId d cacheKey st2
        { r with trace := Action.validateInput :: r.trace }

/-! ### src/api/health.js -/

/-- Status of one checked service. -/
inductive SStatus where
  | ok
  | error
  | notConfigured
deriving DecidableEq

/-- One value of `healthCheck.services`: it carries `status` and
`message` fields but no `service` field. -/
structure ServiceEntry where
  status : SStatus
  message : String
deriving DecidableEq

/-- The configuration the health check inspects. -/
structure HealthEnv where
  dbConfigured : Bool
  dbPingFails : Bool
  geminiConfigured : Bool
  resendConfigured : Bool
deriving DecidableEq

/-- The service entries built by health.js lines 26-72, in order:
database, gemini_api, resend_api. -/
def healthServices (e : HealthEnv) : List ServiceEntry :=
  [ if e.dbConfigured then
      if e.dbPingFails then ⟨.error, "Database connection failed"⟩
      else ⟨.ok, "Database connection successful"⟩
    else ⟨.notConfigured, "Database credentials not configured"⟩,
    if e.geminiConfigured then ⟨.ok, "Service configured"⟩
    else ⟨.notConfigured, "Service not configured"⟩,
    if e.resendConfigured then ⟨.ok, "Service configured"⟩
    else ⟨.notConfigured, "Service not configured"⟩ ]

/-- The `hasCriticalIssues` computation of health.js lines 77-78:
`some(s => s.status === 'not_configured' && (s.service.includes(...)))`.
The entries have no `service` field, so as soon as the left conjunct is
true the predicate reads `undefined.includes` and throws, modelled as
`Except.error`. -/
def hasCriticalIssuesComp : List ServiceEntry → Except Unit Bool
  | [] => .ok false
  | s :: rest =>
    if s.status = SStatus.notConfigured then .error ()
    else hasCriticalIssuesComp rest

/-- The possible responses of the health handler. -/
inductive HealthOutcome where
  | methodNotAllowed
  | checkFailed
  | errorBody
  | degraded
  | okBody
deriving DecidableEq

/-- The health handler (health.js): build the service entries, compute
`hasErrors`, compute `hasCriticalIssues` (which throws whenever some
entry is `not_configured`, landing in the catch block's 503
'Health check failed'), and otherwise dispatch on the two flags. -/
def healthHandler (e : HealthEnv) (method : String) : Nat × HealthOutcome :=
  if method ≠ "GET" then (405, .methodNotAllowed)
  else
    let svcs := healthServices e
    let hasErrors := svcs.any (fun s => s.status = SStatus.error)
    match hasCriticalIssuesComp svcs with
    | .error _ => (503, .checkFailed)
    | .ok hasCriticalIssues =>
      if hasErrors then (503, .errorBody)
      else if hasCriticalIssues then (200, .degraded)
      else (200, .okBody)

/-! ### src/api/unsubscribe.js -/

/-- The loose email regex of unsubscribe.js, `/^[^\s@]+@[^\s@]+\.[^\s@]+$/`:
exactly one `@`, a nonempty local part, and after the `@` a `.` with at
least one character on each side, all characters non-whitespace and
non-`@`. -/
def unsubEmailRegexTest (s : List Char) : Bool :=
  match splitOnChar (Char.ofNat 64) s with
  | [loc, rest] =>
    !loc.isEmpty && loc.all (fun c => !isWs c) &&
      !rest.isEmpty && rest.all (fun c => !isWs c) &&
      ((rest.drop 1).dropLast.contains (Char.ofNat 46))
  | _ => false

/-- An unsubscribe request: method, `email` query parameter (GET) and
`email` body field (POST). -/
structure UnsubRequest where
  method : String
  queryEmail : Option (List Char)
  bodyEmail : Option (List Char)

/-- Outcome of the Supabase `update` call: thrown error, returned error,
or success. -/
inductive DbUpdateResult where
  | throws (msg : String)
  | returnsError (msg : String)
  | success
deriving DecidableEq

/-- The pages / JSON bodies the unsubscribe handler can respond with. -/
inductive UnsubBody where
  | invalidLinkPage
  | successPage (email : List Char)
  | errorPage
  | jsonEmailRequired
  | jsonInvalidFormat
  | jsonSuccess
  | jsonFailure
  | methodNotAllowed
deriving DecidableEq

/-- The unsubscribe handler (unsubscribe.js). On GET: missing/empty email
is a 400 page; a regex failure throws into the catch (500 page); a
database update that merely returns an error is logged and discarded and
the success page is still returned; a thrown update error reaches the
catch (500 page). On POST the same update drives a JSON response. -/
def unsubHandler (db : DbUpdateResult) (req : UnsubRequest) :
    Nat × UnsubBody × List String :=
  if req.method = "GET" then
    let email := req.queryEmail.getD []
    if email.isEmpty then (400, .invalidLinkPage, [])
    else if !unsubEmailRegexTest email then (500, .errorPage, ["Unsubscribe error"])
    else
      match db with
      | .throws _ => (500, .errorPage, ["Unsubscribe error"])
      | .returnsError _ =>
        (200, .successPage email, ["Unsubscribe database error"])
      | .success => (200, .successPage email, [])
  else if req.method = "POST" then
    let email := req.bodyEmail.getD []
    if email.isEmpty then (400, .jsonEmailRequired, [])
    else if !unsubEmailRegexTest email then (400, .jsonInvalidFormat, [])
    else
      match db with
      | .throws _ => (500, .jsonFailure, ["Unsubscribe error"])
      | _ => (200, .jsonSuccess, [])
  else (405, .methodNotAllowed, [])

/-! ### Trace predicates -/

/-- Is this action the LLM call? -/
def isCallLLMAct : Action → Bool
  | .callLLM => true
  | _ => false

/-- Is this action the database upsert? -/
def isDbUpsertAct : Action → Bool
  | .dbUpsert _ _ => true
  | _ => false

/-- Is this action an email send (immediate or scheduled)? -/
def isSendEmailAct : Action → Bool
  | .sendEmail _ => true
  | _ => false

/-- Is this action the input validation? -/
def isValidateAct : Action → Bool
  | .validateInput => true
  | _ => false

/-- Some action satisfying `p` occurs strictly before some action
satisfying `q`. -/
def occursBefore (p q : Action → Bool) : List Action → Bool
  | [] => false
  | a :: rest => if p a then rest.any q else occursBefore p q rest

/-- Any character that can occur in a string matched by the strict email
regex: a local character, `@`, a domain character, or `.`. -/
def isEmailChar (c : Char) : Bool :=
  isLocalChar c || c.toNat = 64 || isDomainChar c || c.toNat = 46

/-! ### Helper lemmas -/

@[simp] theorem alookup_nil {κ α : Type} [DecidableEq κ] (k : κ) :
    alookup k ([] : List (κ × α)) = none := rfl

@[simp] theorem alookup_cons {κ α : Type} [DecidableEq κ] (k k2 : κ) (v : α)
    (m : List (κ × α)) :
    alookup k ((k2, v) :: m) = if k = k2 then some v else alookup k m := rfl

@[simp] theorem aset_nil {κ α : Type} [DecidableEq κ] (k : κ) (v : α) :
    aset k v ([] : List (κ × α)) = [(k, v)] := rfl

@[simp] theorem aset_cons {κ α : Type} [DecidableEq κ] (k k2 : κ) (v v2 : α)
    (m : List (κ × α)) :
    aset k v ((k2, v2) :: m) =
      if k = k2 then (k, v) :: m else (k2, v2) :: aset k v m := rfl

theorem alookup_aset_self {κ α : Type} [DecidableEq κ] (k : κ) (v : α)
    (m : List (κ × α)) : alookup k (aset k v m) = some v := by
  induction m with
  | nil => simp [aset, alookup]
  | cons hd tl ih =>
    by_cases h : k = hd.1
    · simp [aset, alookup, h]
    · simp [aset, alookup, h, ih]

theorem inWindow_self (now : Nat) : inWindow now now = true := by
  simp [inWindow, RATE_LIMIT_WINDOW]

theorem filter_inWindow_idem (now : Nat) (l : List Nat) :
    ((l.filter (inWindow now)) ++ [now]).filter (inWindow now) =
      l.filter (inWindow now) ++ [now] := by
  rw [List.filter_append, List.filter_filter]
  simp [inWindow_self, Bool.and_self]

theorem cleanup_lookup (now : Nat) (ip : String) (l : List Nat) (m : RateMap)
    (h : (l.filter (inWindow now)).isEmpty = false) :
    alookup ip (cleanupRateMap now (aset ip l m)) = some (l.filter (inWindow now)) := by
  induction m with
  | nil =>
    simp only [aset, cleanupRateMap, h, Bool.false_eq_true, if_false]
    simp [alookup]
  | cons hd tl ih =>
    obtain ⟨k, v⟩ := hd
    by_cases hk : ip = k
    · subst hk
      simp only [aset, if_pos rfl, cleanupRateMap, h, Bool.false_eq_true, if_false]
      simp [alookup]
    · simp only [aset, if_neg hk, cleanupRateMap]
      rcases he : (v.filter (inWindow now)).isEmpty with _ | _
      · simp only [he, Bool.false_eq_true, if_false]
        rw [alookup_cons, if_neg hk]
        exact ih
      · simp only [he, if_true]
        exact ih

theorem checkRateLimit_false_iff (now : Nat) (ip : String) (m : RateMap) (draw : Bool) :
    (checkRateLimit now ip m draw).1 = false ↔
      RATE_LIMIT_MAX_REQUESTS ≤ (((alookup ip m).getD []).filter (inWindow now)).length := by
  unfold checkRateLimit
  by_cases h :
      RATE_LIMIT_MAX_REQUESTS ≤ (((alookup ip m).getD []).filter (inWindow now)).length
  · simp [h]
  · simp [h]

theorem checkRateLimit_true_window (now : Nat) (ip : String) (m : RateMap) (draw : Bool)
    (h : (checkRateLimit now ip m draw).1 = true) :
    alookup ip (checkRateLimit now ip m draw).2 =
      some ((((alookup ip m).getD []).filter (inWindow now)) ++ [now]) := by
  by_cases hc :
      RATE_LIMIT_MAX_REQUESTS ≤ (((alookup ip m).getD []).filter (inWindow now)).length
  · exfalso
    have hf := (checkRateLimit_false_iff now ip m draw).mpr hc
    rw [h] at hf
    exact absurd hf (by simp)
  · unfold checkRateLimit
    simp only [if_neg hc]
    rcases draw with _ | _
    · simp [alookup_aset_self]
    · simp only [if_true]
      rw [cleanup_lookup now ip _ m (by rw [filter_inWindow_idem]; simp)]
      rw [filter_inWindow_idem]

theorem cacheMissPath_status (env : Env) (o : Oracles) (now : Nat) (rid : String)
    (d : SanitizedData) (key : List Char) (st : HState) :
    (cacheMissPath env o now rid d key st).response.status = 500 ∨
      (cacheMissPath env o now rid d key st).response.status = 200 := by
  unfold cacheMissPath
  rcases o.llm with msg | desc
  · left; rfl
  · by_cases h : (jsTrim desc).isEmpty
    · left; simp [h, mk500]
    · right; simp [h]

theorem handler_429_iff (env : Env) (o : Oracles) (now : Nat) (req : Request)
    (st : HState) (hm : req.method = "POST") :
    ((handler env o now req st).response.status = 429 ↔
      (checkRateLimit now req.ip st.rateLimitMap o.cleanupDraw).1 = false) := by
  unfold handler
  simp only [hm, ne_eq, not_true_eq_false, if_false]
  rcases hrl : (checkRateLimit now req.ip st.rateLimitMap o.cleanupDraw).1 with _ | _
  · simp [hrl]
  · simp only [hrl, Bool.not_true, Bool.false_eq_true, if_false]
    rcases hv : validateAndSanitizeInput req.body with msg | r
    · simp [mk500]
    · rcases r with err | d
      · simp
      · simp only []
        rcases hl : freshCacheLookup now (cleanCache now st.responseCache)
            (getCacheKey d.productName d.productFeatures) with _ | item
        · rcases cacheMissPath_status env o now req.requestId d
              (getCacheKey d.productName d.productFeatures)
              { st with
                rateLimitMap := (checkRateLimit now req.ip st.rateLimitMap o.cleanupDraw).2
                responseCache := cleanCache now st.responseCache } with h | h <;>
            simp [h]
        · simp [cacheHitPath]

/-- C2: the generate endpoint admits at most 5 requests per sliding
60-second window per IP. `checkRateLimit` returns false exactly when the
stored window for the IP already holds 5 or more timestamps less than 60
seconds old; an admitted request's timestamp is appended to the (refiltered)
window; and on a POST request the handler responds 429 exactly when
`checkRateLimit` returns false. -/
theorem rateLimit_spec (now : Nat) (ip : String) (m : RateMap) (draw : Bool) :
    ((checkRateLimit now ip m draw).1 = false ↔
      RATE_LIMIT_MAX_REQUESTS ≤ (((alookup ip m).getD []).filter (inWindow now)).length) ∧
    ((checkRateLimit now ip m draw).1 = true →
      alookup ip (checkRateLimit now ip m draw).2 =
        some ((((alookup ip m).getD []).filter (inWindow now)) ++ [now])) ∧
    (∀ (env : Env) (o : Oracles) (req : Request) (st : HState),
      req.method = "POST" → req.ip = ip → st.rateLimitMap = m → o.cleanupDraw = draw →
      ((handler env o now req st).response.status = 429 ↔
        (checkRateLimit now ip m draw).1 = false)) := by
  refine ⟨checkRateLimit_false_iff now ip m draw,
          checkRateLimit_true_window now ip m draw, ?_⟩
  intro env o req st hm hip hst hdraw
  rw [← hip, ← hst, ← hdraw]
  exact handler_429_iff env o now req st hm

/-- Witness for C2 at a concrete map and request: one recent timestamp,
so the request is admitted and appended; and the handler does not answer
429 there. -/
theorem rateLimit_spec_witness :
    (alookup "ip" (checkRateLimit 50 "ip" [("ip", [10])] false).2 =
      some ((((alookup "ip" [("ip", [10])]).getD []).filter (inWindow 50)) ++ [50])) ∧
    ((handler ⟨false, false⟩ ⟨none, none, Except.error "x", none, false, false⟩ 50
        ⟨"POST", "ip", "rid", ⟨.str [], .str [], .str []⟩⟩
        ⟨[("ip", [10])], []⟩).response.status = 429 ↔
      (checkRateLimit 50 "ip" [("ip", [10])] false).1 = false) :=
  ⟨(rateLimit_spec 50 "ip" [("ip", [10])] false).2.1 (by decide),
   (rateLimit_spec 50 "ip" [("ip", [10])] false).2.2
     ⟨false, false⟩ ⟨none, none, Except.error "x", none, false, false⟩
     ⟨"POST", "ip", "rid", ⟨.str [], .str [], .str []⟩⟩
     ⟨[("ip", [10])], []⟩ rfl rfl rfl rfl⟩

theorem cleanCache_idem (now : Nat) (c : Cache) :
    cleanCache now (cleanCache now c) = cleanCache now c := by
  unfold cleanCache
  rw [List.filter_filter]
  simp [Bool.and_self]

/-- C4: `cleanCache` removes exactly the entries strictly older than 5
minutes, keeps every other entry unchanged, and the generate handler's
behaviour on a request that reaches the cache stage is unchanged by
pre-cleaning the cache (its lookup happens on the cleaned cache). -/
theorem cleanCache_spec (now : Nat) (c : Cache) :
    (∀ kv ∈ cleanCache now c, now - kv.2.timestamp ≤ CACHE_TTL) ∧
    (∀ kv ∈ c, now - kv.2.timestamp ≤ CACHE_TTL → kv ∈ cleanCache now c) ∧
    (∀ (env : Env) (o : Oracles) (req : Request) (st : HState) (d : SanitizedData),
      req.method = "POST" →
      (checkRateLimit now req.ip st.rateLimitMap o.cleanupDraw).1 = true →
      validateAndSanitizeInput req.body = Except.ok (.valid d) →
      st.responseCache = c →
      handler env o now req st =
        handler env o now req { st with responseCache := cleanCache now c }) := by
  refine ⟨?_, ?_, ?_⟩
  · intro kv hkv
    rw [cleanCache, List.mem_filter] at hkv
    have h2 := hkv.2
    simp only [Bool.not_eq_true', decide_eq_false_iff_not] at h2
    omega
  · intro kv hkv hts
    rw [cleanCache, List.mem_filter]
    refine ⟨hkv, ?_⟩
    simp only [Bool.not_eq_true', decide_eq_false_iff_not]
    omega
  · intro env o req st d hm hrl hv hc
    subst hc
    unfold handler
    simp only [hm, ne_eq, not_true_eq_false, if_false, hv]
    simp only [hrl, Bool.not_true, Bool.false_eq_true, if_false,
      cleanCache_idem now st.responseCache]

/-- Witness for C4: a 200-second-old entry survives `cleanCache` at TTL
5 minutes, and a concrete valid request behaves identically on the
pre-cleaned cache. -/
theorem cleanCache_spec_witness :
    (("k".data, (⟨"d".data, 200000⟩ : CacheEntry)) ∈
        cleanCache 400000 [("k".data, ⟨"d".data, 200000⟩)]) ∧
    handler ⟨false, false⟩ ⟨none, none, Except.error "x", none, false, false⟩ 400000
        ⟨"POST", "ip", "rid", ⟨.str "Widget".data, .str "Fast".data, .str "a@b.c".data⟩⟩
        ⟨[], [("k".data, ⟨"d".data, 200000⟩)]⟩ =
      handler ⟨false, false⟩ ⟨none, none, Except.error "x", none, false, false⟩ 400000
        ⟨"POST", "ip", "rid", ⟨.str "Widget".data, .str "Fast".data, .str "a@b.c".data⟩⟩
        ⟨[], cleanCache 400000 [("k".data, ⟨"d".data, 200000⟩)]⟩ :=
  ⟨(cleanCache_spec 400000 [("k".data, ⟨"d".data, 200000⟩)]).2.1 _ (by simp)
     (by norm_num [CACHE_TTL]),
   (cleanCache_spec 400000 [("k".data, ⟨"d".data, 200000⟩)]).2.2
     ⟨false, false⟩ ⟨none, none, Except.error "x", none, false, false⟩
     ⟨"POST", "ip", "rid", ⟨.str "Widget".data, .str "Fast".data, .str "a@b.c".data⟩⟩
     ⟨[], [("k".data, ⟨"d".data, 200000⟩)]⟩
     ⟨"Widget".data, "Fast".data, "a@b.c".data⟩ rfl rfl rfl rfl⟩

theorem alookup_filter {κ α : Type} [DecidableEq κ] (p : κ × α → Bool) (k : κ) (v : α)
    (l : List (κ × α)) (hl : alookup k l = some v) (hp : p (k, v) = true) :
    alookup k (l.filter p) = some v := by
  induction l with
  | nil => simp at hl
  | cons hd tl ih =>
    obtain ⟨k2, v2⟩ := hd
    rw [alookup_cons] at hl
    by_cases hk : k = k2
    · rw [if_pos hk] at hl
      obtain rfl : v2 = v := by injection hl
      subst hk
      rw [List.filter_cons, if_pos hp, alookup_cons, if_pos rfl]
    · rw [if_neg hk] at hl
      rw [List.filter_cons]
      by_cases hp2 : p (k2, v2) = true
      · rw [if_pos hp2, alookup_cons, if_neg hk]
        exact ih hl
      · rw [if_neg hp2]
        exact ih hl

theorem freshCacheLookup_clean (now : Nat) (c : Cache) (key : List Char)
    (item : CacheEntry) (hl : alookup key c = some item)
    (hf : now - item.timestamp < CACHE_TTL) :
    freshCacheLookup now (cleanCache now c) key = some item := by
  have h2 : alookup key (cleanCache now c) = some item := by
    refine alookup_filter _ key item c hl ?_
    simp only [Bool.not_eq_true', decide_eq_false_iff_not]
    omega
  rw [freshCacheLookup, h2]
  simp [hf]

/-- C3: a validated request whose normalized cache key maps to an entry
less than 5 minutes old is answered 200 with the (trimmed) cached
description, and the LLM provider is not called. -/
theorem cacheHit_spec (env : Env) (o : Oracles) (now : Nat) (req : Request)
    (st : HState) (d : SanitizedData) (item : CacheEntry)
    (hm : req.method = "POST")
    (hrl : (checkRateLimit now req.ip st.rateLimitMap o.cleanupDraw).1 = true)
    (hv : validateAndSanitizeInput req.body = Except.ok (.valid d))
    (hl : alookup (getCacheKey d.productName d.productFeatures) st.responseCache =
      some item)
    (hf : now - item.timestamp < CACHE_TTL) :
    (handler env o now req st).response.status = 200 ∧
    (handler env o now req st).response.description = some (jsTrim item.description) ∧
    Action.callLLM ∉ (handler env o now req st).trace := by
  have hfresh := freshCacheLookup_clean now st.responseCache _ item hl hf
  unfold handler
  simp only [hm, ne_eq, not_true_eq_false, if_false, hrl, Bool.not_true,
    Bool.false_eq_true, hv, hfresh]
  refine ⟨rfl, rfl, ?_⟩
  by_cases hE : o.emailCacheHitFails = true <;> simp [cacheHitPath, hE]

/-- Witness for C3: a fresh cached entry answers a concrete request with
its description and the trace holds no LLM call. -/
theorem cacheHit_spec_witness :
    (handler ⟨false, false⟩ ⟨none, none, Except.error "x", none, false, false⟩ 400000
        ⟨"POST", "ip", "rid", ⟨.str "Widget".data, .str "Fast".data, .str "a@b.c".data⟩⟩
        ⟨[], [("widget:fast".data, ⟨"Cached text".data, 200000⟩)]⟩).response.status = 200 ∧
    (handler ⟨false, false⟩ ⟨none, none, Except.error "x", none, false, false⟩ 400000
        ⟨"POST", "ip", "rid", ⟨.str "Widget".data, .str "Fast".data, .str "a@b.c".data⟩⟩
        ⟨[], [("widget:fast".data, ⟨"Cached text".data, 200000⟩)]⟩).response.description =
      some (jsTrim "Cached text".data) ∧
    Action.callLLM ∉
      (handler ⟨false, false⟩ ⟨none, none, Except.error "x", none, false, false⟩ 400000
        ⟨"POST", "ip", "rid", ⟨.str "Widget".data, .str "Fast".data, .str "a@b.c".data⟩⟩
        ⟨[], [("widget:fast".data, ⟨"Cached text".data, 200000⟩)]⟩).trace :=
  cacheHit_spec ⟨false, false⟩ ⟨none, none, Except.error "x", none, false, false⟩ 400000
    ⟨"POST", "ip", "rid", ⟨.str "Widget".data, .str "Fast".data, .str "a@b.c".data⟩⟩
    ⟨[], [("widget:fast".data, ⟨"Cached text".data, 200000⟩)]⟩
    ⟨"Widget".data, "Fast".data, "a@b.c".data⟩ ⟨"Cached text".data, 200000⟩
    rfl rfl rfl (by decide) (by decide)

theorem handler_miss (env : Env) (o : Oracles) (now : Nat) (req : Request)
    (st : HState) (d : SanitizedData)
    (hm : req.method = "POST")
    (hrl : (checkRateLimit now req.ip st.rateLimitMap o.cleanupDraw).1 = true)
    (hv : validateAndSanitizeInput req.body = Except.ok (.valid d))
    (hmiss : freshCacheLookup now (cleanCache now st.responseCache)
      (getCacheKey d.productName d.productFeatures) = none) :
    handler env o now req st =
      (let r := cacheMissPath env o now req.requestId d
        (getCacheKey d.productName d.productFeatures)
        { st with
          rateLimitMap := (checkRateLimit now req.ip st.rateLimitMap o.cleanupDraw).2
          responseCache := cleanCache now st.responseCache }
       { r with trace := Action.validateInput :: r.trace }) := by
  unfold handler
  simp only [hm, ne_eq, not_true_eq_false, if_false, hrl, Bool.not_true,
    Bool.false_eq_true, hv, hmiss]

/-- C6: on a cache miss with a nonempty LLM result and no email failure,
the handler sends exactly one immediate email, one scheduled exactly 2
hours (7200000 ms) out, and one scheduled exactly 6 hours (21600000 ms)
out if and only if the Stripe checkout link is configured. -/
theorem emailSequence_spec (env : Env) (o : Oracles) (now : Nat) (req : Request)
    (st : HState) (d : SanitizedData) (desc : List Char)
    (hm : req.method = "POST")
    (hrl : (checkRateLimit now req.ip st.rateLimitMap o.cleanupDraw).1 = true)
    (hv : validateAndSanitizeInput req.body = Except.ok (.valid d))
    (hmiss : freshCacheLookup now (cleanCache now st.responseCache)
      (getCacheKey d.productName d.productFeatures) = none)
    (hllm : o.llm = Except.ok desc)
    (hne : (jsTrim desc).isEmpty = false)
    (hem : o.emailFailAt = none) :
    ((handler env o now req st).trace.filter isSendEmailAct) =
      [Action.sendEmail none, Action.sendEmail (some 7200000)] ++
        (if env.stripeLinkSet then [Action.sendEmail (some 21600000)] else []) := by
  rw [handler_miss env o now req st d hm hrl hv hmiss]
  unfold cacheMissPath
  simp only [hllm, hne, Bool.false_eq_true, if_false, hem]
  rcases hdb : o.dbError with _ | e <;>
    by_cases hs : env.stripeLinkSet = true <;>
      simp [performedEmails, plannedEmails, isSendEmailAct, hs, List.filter]

/-- Witness for C6: a concrete cache-miss request with the Stripe link
configured yields the three sends with the exact delays. -/
theorem emailSequence_spec_witness :
    ((handler ⟨false, true⟩
        ⟨none, none, Except.ok "A description".data, none, false, false⟩ 1000
        ⟨"POST", "ip", "rid", ⟨.str "Widget".data, .str "Fast".data, .str "a@b.c".data⟩⟩
        ⟨[], []⟩).trace.filter isSendEmailAct) =
      [Action.sendEmail none, Action.sendEmail (some 7200000)] ++
        (if (true : Bool) then [Action.sendEmail (some 21600000)] else []) :=
  emailSequence_spec ⟨false, true⟩
    ⟨none, none, Except.ok "A description".data, none, false, false⟩ 1000
    ⟨"POST", "ip", "rid", ⟨.str "Widget".data, .str "Fast".data, .str "a@b.c".data⟩⟩
    ⟨[], []⟩ ⟨"Widget".data, "Fast".data, "a@b.c".data⟩ "A description".data
    rfl rfl rfl rfl rfl rfl rfl

/-- C7: a thrown error in the main try block (an LLM error such as the
30-second timeout, or an empty LLM response) yields a 500 whose error
field is the generic text in production and the internal message in
development, always carrying the request ID. -/
theorem errorPath_spec (env : Env) (o : Oracles) (now : Nat) (req : Request)
    (st : HState) (d : SanitizedData)
    (hm : req.method = "POST")
    (hrl : (checkRateLimit now req.ip st.rateLimitMap o.cleanupDraw).1 = true)
    (hv : validateAndSanitizeInput req.body = Except.ok (.valid d))
    (hmiss : freshCacheLookup now (cleanCache now st.responseCache)
      (getCacheKey d.productName d.productFeatures) = none) :
    (∀ msg, o.llm = Except.error msg →
      (handler env o now req st).response.status = 500 ∧
      (handler env o now req st).response.error =
        some (if env.nodeEnvDev then msg else genericErrorMsg) ∧
      (handler env o now req st).response.requestId = some req.requestId) ∧
    (∀ desc, o.llm = Except.ok desc → (jsTrim desc).isEmpty = true →
      (handler env o now req st).response.status = 500 ∧
      (handler env o now req st).response.error =
        some (if env.nodeEnvDev then "LLM failed to generate a valid description."
              else genericErrorMsg) ∧
      (handler env o now req st).response.requestId = some req.requestId) := by
  rw [handler_miss env o now req st d hm hrl hv hmiss]
  constructor
  · intro msg hllm
    unfold cacheMissPath
    simp [hllm, mk500]
  · intro desc hllm hempty
    unfold cacheMissPath
    simp [hllm, hempty, mk500]

/-- Witness for C7: a concrete request whose LLM call throws
'Request timeout' in production mode gets the generic 500 with the
request ID. -/
theorem errorPath_spec_witness :
    (handler ⟨false, false⟩
        ⟨none, none, Except.error "Request timeout", none, false, false⟩ 1000
        ⟨"POST", "ip", "rid", ⟨.str "Widget".data, .str "Fast".data, .str "a@b.c".data⟩⟩
        ⟨[], []⟩).response.status = 500 ∧
    (handler ⟨false, false⟩
        ⟨none, none, Except.error "Request timeout", none, false, false⟩ 1000
        ⟨"POST", "ip", "rid", ⟨.str "Widget".data, .str "Fast".data, .str "a@b.c".data⟩⟩
        ⟨[], []⟩).response.error =
      some (if (false : Bool) then "Request timeout" else genericErrorMsg) ∧
    (handler ⟨false, false⟩
        ⟨none, none, Except.error "Request timeout", none, false, false⟩ 1000
        ⟨"POST", "ip", "rid", ⟨.str "Widget".data, .str "Fast".data, .str "a@b.c".data⟩⟩
        ⟨[], []⟩).response.requestId = some "rid" :=
  (errorPath_spec ⟨false, false⟩
    ⟨none, none, Except.error "Request timeout", none, false, false⟩ 1000
    ⟨"POST", "ip", "rid", ⟨.str "Widget".data, .str "Fast".data, .str "a@b.c".data⟩⟩
    ⟨[], []⟩ ⟨"Widget".data, "Fast".data, "a@b.c".data⟩
    rfl rfl rfl rfl).1 "Request timeout" rfl

/-- C8: a database upsert error on the cache-miss path does not abort the
request: the error is logged as a warning, the upsert still precedes the
LLM call, and a successful generation is answered 200 with the
description. -/
theorem dbErrorNonfatal_spec (env : Env) (o : Oracles) (now : Nat) (req : Request)
    (st : HState) (d : SanitizedData) (desc : List Char) (e : String)
    (hm : req.method = "POST")
    (hrl : (checkRateLimit now req.ip st.rateLimitMap o.cleanupDraw).1 = true)
    (hv : validateAndSanitizeInput req.body = Except.ok (.valid d))
    (hmiss : freshCacheLookup now (cleanCache now st.responseCache)
      (getCacheKey d.productName d.productFeatures) = none)
    (hdb : o.dbError = some e)
    (hllm : o.llm = Except.ok desc)
    (hne : (jsTrim desc).isEmpty = false) :
    (handler env o now req st).response.status = 200 ∧
    (handler env o now req st).response.description = some (jsTrim desc) ∧
    Action.logWarn "Database error occurred" ∈ (handler env o now req st).trace ∧
    occursBefore isDbUpsertAct isCallLLMAct (handler env o now req st).trace = true := by
  rw [handler_miss env o now req st d hm hrl hv hmiss]
  unfold cacheMissPath
  simp only [hllm, hne, Bool.false_eq_true, if_false, hdb]
  refine ⟨trivial, trivial, by simp, ?_⟩
  simp [occursBefore, isDbUpsertAct, isValidateAct, isCallLLMAct, List.any]

/-- Witness for C8: a concrete request whose upsert reports an error is
still answered 200 with the generated description. -/
theorem dbErrorNonfatal_spec_witness :
    (handler ⟨false, false⟩
        ⟨some "db down", none, Except.ok "A description".data, none, false, false⟩ 1000
        ⟨"POST", "ip", "rid", ⟨.str "Widget".data, .str "Fast".data, .str "a@b.c".data⟩⟩
        ⟨[], []⟩).response.status = 200 ∧
    (handler ⟨false, false⟩
        ⟨some "db down", none, Except.ok "A description".data, none, false, false⟩ 1000
        ⟨"POST", "ip", "rid", ⟨.str "Widget".data, .str "Fast".data, .str "a@b.c".data⟩⟩
        ⟨[], []⟩).response.description = some (jsTrim "A description".data) ∧
    Action.logWarn "Database error occurred" ∈
      (handler ⟨false, false⟩
        ⟨some "db down", none, Except.ok "A description".data, none, false, false⟩ 1000
        ⟨"POST", "ip", "rid", ⟨.str "Widget".data, .str "Fast".data, .str "a@b.c".data⟩⟩
        ⟨[], []⟩).trace ∧
    occursBefore isDbUpsertAct isCallLLMAct
      (handler ⟨false, false⟩
        ⟨some "db down", none, Except.ok "A description".data, none, false, false⟩ 1000
        ⟨"POST", "ip", "rid", ⟨.str "Widget".data, .str "Fast".data, .str "a@b.c".data⟩⟩
        ⟨[], []⟩).trace = true :=
  dbErrorNonfatal_spec ⟨false, false⟩
    ⟨some "db down", none, Except.ok "A description".data, none, false, false⟩ 1000
    ⟨"POST", "ip", "rid", ⟨.str "Widget".data, .str "Fast".data, .str "a@b.c".data⟩⟩
    ⟨[], []⟩ ⟨"Widget".data, "Fast".data, "a@b.c".data⟩ "A description".data "db down"
    rfl rfl rfl rfl rfl rfl rfl

/-- C1 counterexample: on a concrete successful cache-miss request the
trace contains both the LLM call and the upsert, the upsert occurs
strictly before the LLM call, and no LLM call ever precedes an upsert —
refuting the claimed order validate, LLM, upsert, email. -/
theorem generateOrder_counterexample :
    (occursBefore isCallLLMAct isDbUpsertAct
      (handler ⟨false, true⟩
        ⟨none, none, Except.ok "A description".data, none, false, false⟩ 1000
        ⟨"POST", "ip", "rid", ⟨.str "Widget".data, .str "Fast".data, .str "a@b.c".data⟩⟩
        ⟨[], []⟩).trace = false) ∧
    (occursBefore isDbUpsertAct isCallLLMAct
      (handler ⟨false, true⟩
        ⟨none, none, Except.ok "A description".data, none, false, false⟩ 1000
        ⟨"POST", "ip", "rid", ⟨.str "Widget".data, .str "Fast".data, .str "a@b.c".data⟩⟩
        ⟨[], []⟩).trace = true) ∧
    ((handler ⟨false, true⟩
        ⟨none, none, Except.ok "A description".data, none, false, false⟩ 1000
        ⟨"POST", "ip", "rid", ⟨.str "Widget".data, .str "Fast".data, .str "a@b.c".data⟩⟩
        ⟨[], []⟩).trace.any isCallLLMAct = true) ∧
    ((handler ⟨false, true⟩
        ⟨none, none, Except.ok "A description".data, none, false, false⟩ 1000
        ⟨"POST", "ip", "rid", ⟨.str "Widget".data, .str "Fast".data, .str "a@b.c".data⟩⟩
        ⟨[], []⟩).trace.any isDbUpsertAct = true) := by
  decide

/-- C1 amended: on a successful cache-miss request the handler's actual
order is validate the input, upsert the lead row, call the generative-AI
provider, then call the email provider; the LLM call never precedes the
upsert. -/
theorem generateOrder_amended (env : Env) (o : Oracles) (now : Nat) (req : Request)
    (st : HState) (d : SanitizedData) (desc : List Char)
    (hm : req.method = "POST")
    (hrl : (checkRateLimit now req.ip st.rateLimitMap o.cleanupDraw).1 = true)
    (hv : validateAndSanitizeInput req.body = Except.ok (.valid d))
    (hmiss : freshCacheLookup now (cleanCache now st.responseCache)
      (getCacheKey d.productName d.productFeatures) = none)
    (hllm : o.llm = Except.ok desc)
    (hne : (jsTrim desc).isEmpty = false)
    (hem : o.emailFailAt = none) :
    (handler env o now req st).trace.head? = some Action.validateInput ∧
    occursBefore isValidateAct isDbUpsertAct (handler env o now req st).trace = true ∧
    occursBefore isDbUpsertAct isCallLLMAct (handler env o now req st).trace = true ∧
    occursBefore isCallLLMAct isSendEmailAct (handler env o now req st).trace = true ∧
    occursBefore isCallLLMAct isDbUpsertAct (handler env o now req st).trace = false := by
  rw [handler_miss env o now req st d hm hrl hv hmiss]
  unfold cacheMissPath
  simp only [hllm, hne, Bool.false_eq_true, if_false, hem]
  rcases hdb : o.dbError with _ | e <;>
    simp [occursBefore, isValidateAct, isDbUpsertAct, isCallLLMAct, isSendEmailAct,
      performedEmails, plannedEmails]

/-- Witness for the amended C1 at a concrete request. -/
theorem generateOrder_amended_witness :
    (handler ⟨true, false⟩
        ⟨none, none, Except.ok "A description".data, none, false, false⟩ 2000
        ⟨"POST", "ip2", "rid2", ⟨.str "Gadget".data, .str "Small".data, .str "b@c.d".data⟩⟩
        ⟨[], []⟩).trace.head? = some Action.validateInput ∧
    occursBefore isValidateAct isDbUpsertAct
      (handler ⟨true, false⟩
        ⟨none, none, Except.ok "A description".data, none, false, false⟩ 2000
        ⟨"POST", "ip2", "rid2", ⟨.str "Gadget".data, .str "Small".data, .str "b@c.d".data⟩⟩
        ⟨[], []⟩).trace = true ∧
    occursBefore isDbUpsertAct isCallLLMAct
      (handler ⟨true, false⟩
        ⟨none, none, Except.ok "A description".data, none, false, false⟩ 2000
        ⟨"POST", "ip2", "rid2", ⟨.str "Gadget".data, .str "Small".data, .str "b@c.d".data⟩⟩
        ⟨[], []⟩).trace = true ∧
    occursBefore isCallLLMAct isSendEmailAct
      (handler ⟨true, false⟩
        ⟨none, none, Except.ok "A description".data, none, false, false⟩ 2000
        ⟨"POST", "ip2", "rid2", ⟨.str "Gadget".data, .str "Small".data, .str "b@c.d".data⟩⟩
        ⟨[], []⟩).trace = true ∧
    occursBefore isCallLLMAct isDbUpsertAct
      (handler ⟨true, false⟩
        ⟨none, none, Except.ok "A description".data, none, false, false⟩ 2000
        ⟨"POST", "ip2", "rid2", ⟨.str "Gadget".data, .str "Small".data, .str "b@c.d".data⟩⟩
        ⟨[], []⟩).trace = false :=
  generateOrder_amended ⟨true, false⟩
    ⟨none, none, Except.ok "A description".data, none, false, false⟩ 2000
    ⟨"POST", "ip2", "rid2", ⟨.str "Gadget".data, .str "Small".data, .str "b@c.d".data⟩⟩
    ⟨[], []⟩ ⟨"Gadget".data, "Small".data, "b@c.d".data⟩ "A description".data
    rfl rfl rfl rfl rfl rfl rfl

/-- C9: whenever no checked service reports `error` but at least one is
`not_configured`, the critical-issues computation throws (the entries
have no `service` field), the exception is caught, and the health
handler answers 503 'Health check failed'; and the `degraded` 200
branch is unreachable in every execution. -/
theorem health_spec :
    (∀ e : HealthEnv,
      ((healthServices e).any (fun s => s.status = SStatus.error)) = false →
      ((healthServices e).any (fun s => s.status = SStatus.notConfigured)) = true →
      healthHandler e "GET" = (503, HealthOutcome.checkFailed)) ∧
    (∀ (e : HealthEnv) (method : String),
      (healthHandler e method).2 ≠ HealthOutcome.degraded) := by
  constructor
  · rintro ⟨db, ping, gem, res⟩
    cases db <;> cases ping <;> cases gem <;> cases res <;> decide
  · intro e method
    by_cases hm : method = "GET"
    · subst hm
      obtain ⟨db, ping, gem, res⟩ := e
      cases db <;> cases ping <;> cases gem <;> cases res <;> decide
    · simp [healthHandler, hm]

/-- Witness for C9: database and Gemini fine, Resend unconfigured — the
handler answers 503 'Health check failed' instead of the degraded 200. -/
theorem health_spec_witness :
    healthHandler ⟨true, false, true, false⟩ "GET" = (503, HealthOutcome.checkFailed) :=
  health_spec.1 ⟨true, false, true, false⟩ (by decide) (by decide)

/-- C10: a GET unsubscribe request whose email passes the format regex is
answered 200 with the success page even when the database update returns
an error; the error is merely logged. -/
theorem unsubscribe_spec (email : List Char) (err : String)
    (h : unsubEmailRegexTest email = true) :
    (unsubHandler (.returnsError err) ⟨"GET", some email, none⟩).1 = 200 ∧
    (unsubHandler (.returnsError err) ⟨"GET", some email, none⟩).2.1 =
      UnsubBody.successPage email ∧
    (unsubHandler (.returnsError err) ⟨"GET", some email, none⟩).2.2 =
      ["Unsubscribe database error"] := by
  have hne : email.isEmpty = false := by
    cases email with
    | nil => exact absurd h (by decide)
    | cons c cs => rfl
  unfold unsubHandler
  simp [hne, h]

/-- Witness for C10 at the concrete address a@b.c and a concrete database
error. -/
theorem unsubscribe_spec_witness :
    (unsubHandler (.returnsError "db down") ⟨"GET", some "a@b.c".data, none⟩).1 = 200 ∧
    (unsubHandler (.returnsError "db down") ⟨"GET", some "a@b.c".data, none⟩).2.1 =
      UnsubBody.successPage "a@b.c".data ∧
    (unsubHandler (.returnsError "db down") ⟨"GET", some "a@b.c".data, none⟩).2.2 =
      ["Unsubscribe database error"] :=
  unsubscribe_spec "a@b.c".data "db down" (by decide)

theorem splitOnChar_ne_nil (c : Char) (s : List Char) : splitOnChar c s ≠ [] := by
  induction s with
  | nil => simp [splitOnChar]
  | cons x xs ih =>
    unfold splitOnChar
    rcases h : splitOnChar c xs with _ | ⟨p, ps⟩
    · simp
    · by_cases hx : x = c <;> simp [hx]

theorem splitOnChar_cons_eq (c x : Char) (xs p0 : List Char) (ps : List (List Char))
    (hs : splitOnChar c xs = p0 :: ps) :
    splitOnChar c (x :: xs) =
      if x = c then [] :: p0 :: ps else (x :: p0) :: ps := by
  unfold splitOnChar
  rw [hs]

theorem splitOnChar_mem (c ch : Char) (s : List Char) (h : ch ∈ s) :
    ch = c ∨ ∃ p ∈ splitOnChar c s, ch ∈ p := by
  induction s with
  | nil => simp at h
  | cons x xs ih =>
    obtain ⟨p0, ps, hsplit⟩ : ∃ p0 ps, splitOnChar c xs = p0 :: ps := by
      rcases hh : splitOnChar c xs with _ | ⟨a, b⟩
      · exact absurd hh (splitOnChar_ne_nil c xs)
      · exact ⟨a, b, rfl⟩
    rw [splitOnChar_cons_eq c x xs p0 ps hsplit]
    rcases List.mem_cons.mp h with rfl | hxs
    · by_cases hx : ch = c
      · exact Or.inl hx
      · right
        rw [if_neg hx]
        exact ⟨ch :: p0, by simp, by simp⟩
    · rcases ih hxs with hc | ⟨p, hp, hchp⟩
      · exact Or.inl hc
      · right
        rw [hsplit] at hp
        rcases List.mem_cons.mp hp with rfl | hps
        · by_cases hx : x = c
          · rw [if_pos hx]
            exact ⟨p, by simp, hchp⟩
          · rw [if_neg hx]
            exact ⟨x :: p, by simp, by simp [hchp]⟩
        · by_cases hx : x = c
          · rw [if_pos hx]
            exact ⟨p, by simp [hps], hchp⟩
          · rw [if_neg hx]
            exact ⟨p, by simp [hps], hchp⟩

theorem emailRegexTest_chars (s : List Char) (h : emailRegexTest s = true) :
    ∀ ch ∈ s, isEmailChar ch = true := by
  intro ch hch
  unfold emailRegexTest at h
  rcases hsplit : splitOnChar (Char.ofNat 64) s with _ | ⟨loc, rest⟩
  · rw [hsplit] at h; simp at h
  · rcases rest with _ | ⟨dom, rest2⟩
    · rw [hsplit] at h; simp at h
    · rcases rest2 with _ | ⟨r3, rest3⟩
      · rw [hsplit] at h
        simp only [Bool.and_eq_true] at h
        obtain ⟨⟨hlocne, hlocall⟩, hdomall⟩ := h
        rcases splitOnChar_mem (Char.ofNat 64) ch s hch with hc | ⟨p, hp, hchp⟩
        · subst hc
          simp [isEmailChar]
        · rw [hsplit] at hp
          rcases List.mem_cons.mp hp with rfl | hp2
          · have := List.all_eq_true.mp hlocall ch hchp
            simp [isEmailChar, this]
          · rcases List.mem_cons.mp hp2 with rfl | hp3
            · rcases splitOnChar_mem (Char.ofNat 46) ch p hchp with hc | ⟨lbl, hlbl, hchlbl⟩
              · subst hc
                simp [isEmailChar]
              · have hall := List.all_eq_true.mp hdomall lbl hlbl
                simp only [Bool.and_eq_true] at hall
                have := List.all_eq_true.mp hall.2 ch hchlbl
                simp [isEmailChar, this]
            · simp at hp3
      · rw [hsplit] at h; simp at h

theorem isEmailChar_lowerChar (c : Char) (h : isEmailChar c = true) :
    isEmailChar (lowerChar c) = true := by
  unfold lowerChar
  by_cases hc : 65 ≤ c.toNat ∧ c.toNat ≤ 90
  · rw [if_pos hc]
    have ht : (Char.ofNat (c.toNat + 32)).toNat = c.toNat + 32 := by
      unfold Char.ofNat
      split
      · rfl
      · rename_i hn
        exact absurd (Or.inl (by omega)) hn
    simp only [isEmailChar, isLocalChar, isDomainChar, Bool.or_eq_true,
      decide_eq_true_eq, List.mem_cons, List.not_mem_nil, or_false, ht] at h ⊢
    omega
  · rw [if_neg hc]
    exact h

theorem isEmailChar_clean (c : Char) (h : isEmailChar c = true) :
    isWs c = false ∧ isControl c = false ∧ isAngle c = false := by
  simp only [isEmailChar, isLocalChar, isDomainChar, Bool.or_eq_true,
    decide_eq_true_eq, List.mem_cons, List.not_mem_nil, or_false] at h
  refine ⟨?_, ?_, ?_⟩ <;>
    simp only [isWs, isControl, isAngle, decide_eq_false_iff_not] <;> omega

theorem dropWhile_eq_self_of (p : Char → Bool) (s : List Char)
    (h : ∀ c ∈ s, p c = false) : s.dropWhile p = s := by
  cases s with
  | nil => rfl
  | cons x xs => simp [List.dropWhile_cons, h x (List.mem_cons_self x xs)]

theorem jsTrim_eq_self_of (s : List Char) (h : ∀ c ∈ s, isWs c = false) :
    jsTrim s = s := by
  unfold jsTrim
  rw [dropWhile_eq_self_of _ _ h]
  rw [dropWhile_eq_self_of _ _ (fun c hc => h c (List.mem_reverse.mp hc))]
  exact List.reverse_reverse s

theorem sanitizeText_eq_self_of (s : List Char)
    (h : ∀ c ∈ s, isWs c = false ∧ isControl c = false ∧ isAngle c = false) :
    sanitizeText s = s := by
  unfold sanitizeText
  have h1 : (s.filter fun c => !isControl c) = s :=
    List.filter_eq_self.mpr (fun c hc => by rw [(h c hc).2.1]; rfl)
  rw [h1]
  have h2 : (s.filter fun c => !isAngle c) = s :=
    List.filter_eq_self.mpr (fun c hc => by rw [(h c hc).2.2]; rfl)
  rw [h2]
  exact jsTrim_eq_self_of s (fun c hc => (h c hc).1)

theorem mem_jsTrim (s : List Char) (c : Char) (h : c ∈ jsTrim s) : c ∈ s := by
  unfold jsTrim at h
  rw [List.mem_reverse] at h
  have h2 := (List.dropWhile_sublist isWs).subset h
  rw [List.mem_reverse] at h2
  exact (List.dropWhile_sublist isWs).subset h2

theorem mem_sanitizeText (t : List Char) (c : Char) (h : c ∈ sanitizeText t) :
    isControl c = false ∧ isAngle c = false := by
  unfold sanitizeText at h
  have h2 := mem_jsTrim _ _ h
  rw [List.mem_filter] at h2
  obtain ⟨h3, hang⟩ := h2
  rw [List.mem_filter] at h3
  obtain ⟨_, hctl⟩ := h3
  constructor <;> simp_all

theorem sanitizeText_length_le (t : List Char) : (sanitizeText t).length ≤ t.length := by
  unfold sanitizeText jsTrim
  simp only [List.length_reverse]
  refine le_trans (List.dropWhile_sublist isWs).length_le ?_
  simp only [List.length_reverse]
  refine le_trans (List.dropWhile_sublist isWs).length_le ?_
  exact le_trans (List.length_filter_le _ _) (List.length_filter_le _ _)

/-- C5: every accepted input yields a productName of at most 100
characters and productFeatures of at most 2000 characters, neither
containing `<`, `>` or an ASCII control character, and an email equal to
the trimmed lowercased input email; an absent email, an email failing the
strict regex, or a missing / non-string productName or productFeatures is
rejected with valid: false. -/
theorem validate_spec :
    (∀ (input : InputData) (d : SanitizedData),
      validateAndSanitizeInput input = Except.ok (.valid d) →
      d.productName.length ≤ 100 ∧ d.productFeatures.length ≤ 2000 ∧
      (∀ c ∈ d.productName, isControl c = false ∧ isAngle c = false) ∧
      (∀ c ∈ d.productFeatures, isControl c = false ∧ isAngle c = false) ∧
      (∀ e, input.email = .str e → d.email = jsToLower (jsTrim e))) ∧
    (∀ input : InputData, input.email = JsField.absent →
      validateAndSanitizeInput input =
        Except.ok (.invalid "Invalid email address format")) ∧
    (∀ (input : InputData) (e : List Char), input.email = .str e →
      emailRegexTest (jsTrim e) = false →
      validateAndSanitizeInput input =
        Except.ok (.invalid "Invalid email address format")) ∧
    (∀ input : InputData, (input.email = .absent ∨ ∃ e, input.email = .str e) →
      input.productName.isStr = false →
      ∃ m, validateAndSanitizeInput input = Except.ok (.invalid m)) ∧
    (∀ input : InputData, (input.email = .absent ∨ ∃ e, input.email = .str e) →
      input.productFeatures.isStr = false →
      ∃ m, validateAndSanitizeInput input = Except.ok (.invalid m)) := by
  refine ⟨?_, ?_, ?_, ?_, ?_⟩
  · rintro ⟨pnF, pfF, emF⟩ d h
    unfold validateAndSanitizeInput at h
    split at h
    · exact absurd h (by simp)
    · split at h
      · exact absurd h (by simp)
      · exact absurd h (by simp)
      · rename_i e heq
        split at h
        · exact absurd h (by simp)
        · rename_i hreg0
          have hreg : emailRegexTest (jsTrim e) = true := by simpa using hreg0
          split at h
          · exact absurd h (by simp)
          · split at h
            · exact absurd h (by simp)
            · split at h
              · rename_i pn pf heqpn heqpf
                dsimp only [] at h
                split at h
                · exact absurd h (by simp)
                · split at h
                  · exact absurd h (by simp)
                  · have hd :
                        ({ productName := sanitizeText (jsSlice 100 (jsTrim pn))
                           productFeatures := sanitizeText (jsSlice 2000 (jsTrim pf))
                           email := sanitizeText (jsToLower (jsTrim e)) } :
                          SanitizedData) = d := by
                      have h2 := h
                      injection h2 with h3
                      injection h3
                    subst hd
                    refine ⟨?_, ?_, ?_, ?_, ?_⟩
                    · exact le_trans (sanitizeText_length_le _) (by simp [jsSlice])
                    · exact le_trans (sanitizeText_length_le _) (by simp [jsSlice])
                    · intro c hc
                      exact mem_sanitizeText _ c hc
                    · intro c hc
                      exact mem_sanitizeText _ c hc
                    · intro e2 he2
                      have he3 : JsField.str e = JsField.str e2 := by
                        rw [← heq]
                        exact he2
                      obtain rfl : e = e2 := by injection he3
                      have hclean : ∀ c ∈ jsToLower (jsTrim e),
                          isWs c = false ∧ isControl c = false ∧ isAngle c = false := by
                        intro c hc
                        obtain ⟨c0, hc0, rfl⟩ := List.mem_map.mp hc
                        have hem := emailRegexTest_chars (jsTrim e) hreg c0 hc0
                        exact isEmailChar_clean _ (isEmailChar_lowerChar c0 hem)
                      exact sanitizeText_eq_self_of _ hclean
              · exact absurd h (by simp)
  · intro input h
    simp [validateAndSanitizeInput, h, JsField.falsy]
  · intro input e he hreg
    by_cases hemp : e.isEmpty
    · simp [validateAndSanitizeInput, he, JsField.falsy, hemp]
    · simp [validateAndSanitizeInput, he, JsField.falsy, hemp, hreg]
  · rintro input (ha | ⟨e, he⟩) hns
    · exact ⟨"Invalid email address format",
        by simp [validateAndSanitizeInput, ha, JsField.falsy]⟩
    · by_cases hemp : e.isEmpty
      · exact ⟨"Invalid email address format",
          by simp [validateAndSanitizeInput, he, JsField.falsy, hemp]⟩
      · by_cases hreg : emailRegexTest (jsTrim e) = true
        · exact ⟨"Product name is required and must be text",
            by simp [validateAndSanitizeInput, he, JsField.falsy, hemp, hreg, hns]⟩
        · exact ⟨"Invalid email address format",
            by simp [validateAndSanitizeInput, he, JsField.falsy, hemp, hreg]⟩
  · rintro ⟨pnF, pfF, emF⟩ (ha | ⟨e, he⟩) hns
    · simp only at ha
      subst ha
      exact ⟨"Invalid email address format",
        by simp [validateAndSanitizeInput, JsField.falsy]⟩
    · simp only at he hns
      subst he
      by_cases hemp : e.isEmpty
      · exact ⟨"Invalid email address format",
          by simp [validateAndSanitizeInput, JsField.falsy, hemp]⟩
      · by_cases hreg : emailRegexTest (jsTrim e) = true
        · cases pnF with
          | absent =>
            exact ⟨"Product name is required and must be text",
              by simp [validateAndSanitizeInput, JsField.falsy, JsField.isStr,
                hemp, hreg]⟩
          | nonstr t =>
            exact ⟨"Product name is required and must be text",
              by cases t <;> simp [validateAndSanitizeInput, JsField.falsy,
                JsField.isStr, hemp, hreg]⟩
          | str pn =>
            by_cases hpn : pn.isEmpty
            · exact ⟨"Product name is required and must be text",
                by simp [validateAndSanitizeInput, JsField.falsy, JsField.isStr,
                  hemp, hreg, hpn]⟩
            · cases pfF with
              | absent => exact ⟨"Product features are required and must be text",
                  by simp [validateAndSanitizeInput, JsField.falsy, JsField.isStr,
                    hemp, hreg, hpn]⟩
              | str pf => exact absurd hns (by simp [JsField.isStr])
              | nonstr u => exact ⟨"Product features are required and must be text",
                  by simp [validateAndSanitizeInput, JsField.falsy, JsField.isStr,
                    hemp, hreg, hpn]⟩
        · exact ⟨"Invalid email address format",
            by simp [validateAndSanitizeInput, JsField.falsy, hemp, hreg]⟩

/-- Witness for C5 at a concrete accepted input with an uppercase,
padded email. -/
theorem validate_spec_witness :
    ("Widget".data.length ≤ 100 ∧ "Fast".data.length ≤ 2000 ∧
      (∀ c ∈ "Widget".data, isControl c = false ∧ isAngle c = false) ∧
      (∀ c ∈ "Fast".data, isControl c = false ∧ isAngle c = false) ∧
      (∀ e, (InputData.mk (.str "Widget".data) (.str "Fast".data)
          (.str " A@B.c ".data)).email = .str e →
        "a@b.c".data = jsToLower (jsTrim e))) ∧
    (∃ m, validateAndSanitizeInput
        ⟨.nonstr true, .str "Fast".data, .str "a@b.c".data⟩ =
      Except.ok (.invalid m)) :=
  ⟨validate_spec.1 ⟨.str "Widget".data, .str "Fast".data, .str " A@B.c ".data⟩
      ⟨"Widget".data, "Fast".data, "a@b.c".data⟩ rfl,
   validate_spec.2.2.2.1 ⟨.nonstr true, .str "Fast".data, .str "a@b.c".data⟩
      (Or.inr ⟨"a@b.c".data, rfl⟩) rfl⟩

end ProdDescGen
